import Mathlib

/-!
# Facility 365 portal — verification of the request-approval workflow

A shallow embedding of `Facility.py`, a single-file procurement /
facility-request approval application.  Requests are rows of a `requests`
table; role dashboards fetch rows by status and run `UPDATE` statements
keyed by the row id; the GMD approval additionally inserts a row into a
`payments` table.  We model rows as records, the database as lists of
rows, and each user-triggered write action as an operation on an
application state, exactly following the Python source.
-/

namespace Facility

/-- SQLite `REAL` money amounts, modelled as rationals. -/
abbrev Money := Rat

/-- A row of the `requests` table (columns as declared in `init_db`).
`invoice_img` is `none` while the BLOB column is still NULL (the insert
statements in `process_cart_submission` do not set it). -/
structure Request where
  id : String
  user_key : String
  requester_name : String
  department : String
  approver_email : String
  category : String
  item : String
  status : String
  amount : Money
  initial_cost : Money
  vendor : String
  invoice_img : Option (List Nat)
  sac_note : String
  date : String
deriving DecidableEq

/-- A row of the `payments` table. -/
structure Payment where
  payment_id : String
  req_id : String
  amount : Money
  status : String
  vendor : String
deriving DecidableEq

/-- A row of the `users` table, in the shape `get_user` returns. -/
structure UserDict where
  username : String
  password : String
  role : String
  name : String
  email : String
  dept : String
  hod_email : String
  force_reset : Nat
deriving DecidableEq

/-- An entry of `st.session_state.cart`: `{"type": cat, "item": sel, "qty": qty}`. -/
structure CartItem where
  type : String
  item : String
  qty : Nat
deriving DecidableEq

/-- The mutable database state the dashboards act on (`requests` and
`payments` tables; `users` and `audit` are handled separately). -/
structure AppState where
  requests : List Request
  payments : List Payment
deriving DecidableEq

/-! ## Cart submission (`process_cart_submission`) -/

/-- The merged description `", ".join(f"{i['item']} ({i['qty']})" ...)`
built for the single stationary request row. -/
def stationaryDesc (stationary : List CartItem) : String :=
  String.intercalate ", " (stationary.map (fun i => i.item ++ " (" ++ toString i.qty ++ ")"))

/-- Routing of a non-stationary cart item, lines 151–153 of `Facility.py`:
start from `"Pending Dept HOD"`, override for `Communication`/`CUG Issue`,
and the (dead) stationary safety catch. -/
def routeStatus (i : CartItem) : String :=
  let status := "Pending Dept HOD"
  let status := if i.type = "Communication" ∧ i.item = "CUG Issue" then "Pending Admin" else status
  let status := if i.type = "Stationary" then "Pending Admin" else status
  status

/-- The single merged stationary request row inserted by
`process_cart_submission` (vendor `"Store"`, status `"Pending Admin"`). -/
def mkStationaryRequest (u : UserDict) (rid dateStr : String) (stationary : List CartItem) : Request :=
  { id := rid, user_key := u.username, requester_name := u.name, department := u.dept,
    approver_email := u.hod_email, category := "Stationary", item := stationaryDesc stationary,
    status := "Pending Admin", amount := 0, initial_cost := 0, vendor := "Store",
    invoice_img := none, sac_note := "", date := dateStr }

/-- A request row inserted for one non-stationary cart item
(vendor `"Pending"`, status from `routeStatus`). -/
def mkOtherRequest (u : UserDict) (rid dateStr : String) (i : CartItem) : Request :=
  { id := rid, user_key := u.username, requester_name := u.name, department := u.dept,
    approver_email := u.hod_email, category := i.type, item := i.item,
    status := routeStatus i, amount := 0, initial_cost := 0, vendor := "Pending",
    invoice_img := none, sac_note := "", date := dateStr }

/-- `process_cart_submission`: the list of request rows inserted for a cart.
`sid` is the uuid drawn for the merged stationary row, `oids` the uuids
drawn for the non-stationary rows (one per row, in order). -/
def process_cart_submission (u : UserDict) (cart : List CartItem) (sid : String)
    (oids : List String) (dateStr : String) : List Request :=
  if cart = [] then []
  else
    (if cart.filter (fun i => i.type = "Stationary") ≠ [] then
      [mkStationaryRequest u sid dateStr (cart.filter (fun i => i.type = "Stationary"))]
    else []) ++
    ((cart.filter (fun i => ¬ i.type = "Stationary")).zip oids).map
      (fun p => mkOtherRequest u p.2 dateStr p.1)

/-! ## Password hashing (`make_hash`, `check_hash`) and login

`make_hash` is `hashlib.sha256(str.encode(password)).hexdigest()`; we
implement SHA-256 over the UTF-8 bytes of the password.  32-bit words are
`Nat`s kept below `2^32` by explicit reduction. -/

/-- Right rotation of a 32-bit word. -/
def rotr32 (n x : Nat) : Nat := ((x >>> n) ||| (x <<< (32 - n))) % 2 ^ 32

/-- SHA-256 small sigma 0. -/
def smallSigma0 (x : Nat) : Nat := rotr32 7 x ^^^ rotr32 18 x ^^^ (x >>> 3)

/-- SHA-256 small sigma 1. -/
def smallSigma1 (x : Nat) : Nat := rotr32 17 x ^^^ rotr32 19 x ^^^ (x >>> 10)

/-- SHA-256 big Sigma 0. -/
def bigSigma0 (x : Nat) : Nat := rotr32 2 x ^^^ rotr32 13 x ^^^ rotr32 22 x

/-- SHA-256 big Sigma 1. -/
def bigSigma1 (x : Nat) : Nat := rotr32 6 x ^^^ rotr32 11 x ^^^ rotr32 25 x

/-- SHA-256 choice function (the complement taken within 32 bits). -/
def sha256Ch (x y z : Nat) : Nat := (x &&& y) ^^^ ((x ^^^ 0xffffffff) &&& z)

/-- SHA-256 majority function. -/
def sha256Maj (x y z : Nat) : Nat := (x &&& y) ^^^ (x &&& z) ^^^ (y &&& z)

/-- The 64 SHA-256 round constants K0..K63 of FIPS 180-4, written in
decimal. -/
def sha256K : List Nat :=
  [1116352408, 1899447441, 3049323471, 3921009573, 961987163, 1508970993,
   2453635748, 2870763221, 3624381080, 310598401, 607225278, 1426881987,
   1925078388, 2162078206, 2614888103, 3248222580, 3835390401, 4022224774,
   264347078, 604807628, 770255983, 1249150122, 1555081692, 1996064986,
   2554220882, 2821834349, 2952996808, 3210313671, 3336571891, 3584528711,
   113926993, 338241895, 666307205, 773529912, 1294757372, 1396182291,
   1695183700, 1986661051, 2177026350, 2456956037, 2730485921, 2820302411,
   3259730800, 3345764771, 3516065817, 3600352804, 4094571909, 275423344,
   430227734, 506948616, 659060556, 883997877, 958139571, 1322822218,
   1537002063, 1747873779, 1955562222, 2024104815, 2227730452, 2361852424,
   2428436474, 2756734187, 3204031479, 3329325298]

/-- The SHA-256 initial hash value H0..H7 of FIPS 180-4, in decimal. -/
def sha256H0 : List Nat :=
  [1779033703, 3144134277, 1013904242, 2773480762,
   1359893119, 2600822924, 528734635, 1541459225]

/-- Big-endian byte representation of a value in a fixed number of bytes. -/
def toBytesBE : Nat → Nat → List Nat
  | 0, _ => []
  | k + 1, v => toBytesBE k (v / 256) ++ [v % 256]

/-- SHA-256 padding: append `0x80`, zero bytes up to 56 mod 64, then the
bit length as 8 big-endian bytes. -/
def padMessage (ms : List Nat) : List Nat :=
  ms ++ [0x80] ++ List.replicate ((64 - (ms.length + 9) % 64) % 64) 0 ++
    toBytesBE 8 (ms.length * 8)

/-- Group bytes into big-endian 32-bit words. -/
def bytesToWords : List Nat → List Nat
  | b0 :: b1 :: b2 :: b3 :: rest =>
      (((b0 * 256 + b1) * 256 + b2) * 256 + b3) :: bytesToWords rest
  | _ => []

/-- One extension step of the message schedule:
`w[i] = w[i-16] + σ0(w[i-15]) + w[i-7] + σ1(w[i-2])`. -/
def scheduleStep (w : List Nat) : List Nat :=
  w ++ [(w.getD (w.length - 16) 0 + smallSigma0 (w.getD (w.length - 15) 0) +
         w.getD (w.length - 7) 0 + smallSigma1 (w.getD (w.length - 2) 0)) % 2 ^ 32]

/-- Iterate the schedule extension. -/
def extendW : Nat → List Nat → List Nat
  | 0, w => w
  | k + 1, w => extendW k (scheduleStep w)

/-- One round of the SHA-256 compression function on the eight-word state. -/
def compressStep (st8 : List Nat) (ki wi : Nat) : List Nat :=
  match st8 with
  | [a, b, c, d, e, f, g, h] =>
    let t1 := (h + bigSigma1 e + sha256Ch e f g + ki + wi) % 2 ^ 32
    let t2 := (bigSigma0 a + sha256Maj a b c) % 2 ^ 32
    [(t1 + t2) % 2 ^ 32, a, b, c, (d + t1) % 2 ^ 32, e, f, g]
  | st => st

/-- Process one 16-word block: run the 64 rounds and add the result to the
incoming hash value. -/
def compressBlock (h8 : List Nat) (block : List Nat) : List Nat :=
  let st := (sha256K.zip (extendW 48 block)).foldl
    (fun s kw => compressStep s kw.1 kw.2) h8
  (h8.zip st).map (fun p => (p.1 + p.2) % 2 ^ 32)

/-- Split a byte list into 64-byte chunks. -/
def chunks64 (bs : List Nat) : List (List Nat) :=
  if h : bs = [] then [] else bs.take 64 :: chunks64 (bs.drop 64)
termination_by bs.length
decreasing_by
  simp only [List.length_drop]
  exact Nat.sub_lt (List.length_pos.mpr h) (by decide)

/-- SHA-256 of a byte string, as the eight-word final hash value. -/
def sha256Words (ms : List Nat) : List Nat :=
  ((chunks64 (padMessage ms)).map bytesToWords).foldl compressBlock sha256H0

/-- A lowercase hexadecimal digit. -/
def hexChar (n : Nat) : Char :=
  if n < 10 then Char.ofNat (48 + n) else Char.ofNat (87 + n)

/-- Eight lowercase hex characters of a 32-bit word, most significant first. -/
def hexWord8 (n : Nat) : String :=
  String.mk ((List.range 8).map (fun i => hexChar ((n >>> (28 - 4 * i)) % 16)))

/-- The lowercase hex digest of SHA-256 of a byte string, as `hexdigest()`
returns it. -/
def sha256hex (ms : List Nat) : String :=
  String.join ((sha256Words ms).map hexWord8)

/-- The UTF-8 bytes of a string (`str.encode`). -/
def strBytes (s : String) : List Nat := s.toUTF8.toList.map UInt8.toNat

/-- `make_hash`: `hashlib.sha256(str.encode(password)).hexdigest()`. -/
def make_hash (password : String) : String := sha256hex (strBytes password)

/-- `check_hash`: `make_hash(password) == hashed_text`. -/
def check_hash (password hashed_text : String) : Bool := make_hash password == hashed_text

/-- `get_user`: the row of `users` whose primary-key `username` matches. -/
def get_user (users : List UserDict) (username : String) : Option UserDict :=
  users.find? (fun u => u.username == username)

/-- `login_function`'s success condition: the typed username is lowercased,
the user must exist, and `check_hash` must accept the typed password
against the stored hash. -/
def loginOk (users : List UserDict) (typedUsername password : String) : Bool :=
  match get_user users typedUsername.toLower with
  | some user => check_hash password user.password
  | none => false

/-! ## The dashboard write actions as operations on the state

Every dashboard button fetches rows by status and then runs `UPDATE`
statements keyed by the fetched row's primary key.  `Op` enumerates every
write action of the application that touches the `requests` or `payments`
tables; `Op.guard` says when the button for it is rendered (the row was in
the dashboard's fetch), and `Op.apply` is its effect. -/

/-- `UPDATE requests SET ... WHERE id = rid` on a list of rows. -/
def updateById (db : List Request) (rid : String) (f : Request → Request) : List Request :=
  db.map (fun r => if r.id == rid then f r else r)

/-- The row of the `requests` table with the given primary key. -/
def rowOf (db : List Request) (rid : String) : Option Request :=
  db.find? (fun r => r.id == rid)

/-- The status of the row with the given primary key. -/
def statusOf (db : List Request) (rid : String) : Option String :=
  (rowOf db rid).map Request.status

/-- The write actions of the application on `requests`/`payments`:
cart submission, the Dept HOD, Admin, SS HOD, SAC, ED and GMD dashboard
buttons, and the Accounts "Mark Paid" button. -/
inductive Op where
  | cartSubmit (u : UserDict) (cart : List CartItem) (sid : String) (oids : List String) (dateStr : String)
  | hodApprove (email rid : String)
  | hodDecline (email rid : String)
  | adminIssue (rid : String)
  | adminResolve (rid : String)
  | adminCosted (rid vendor : String) (cost : Money) (img : Option (List Nat))
  | ssHodApprove (rid : String)
  | ssHodDecline (rid : String)
  | sacValidate (rid : String) (newCost : Money) (note : String)
  | edApprove (rid : String)
  | edDecline (rid : String)
  | gmdApprove (rid pid : String)
  | gmdDecline (rid : String)
  | accountsMarkPaid (pid : String)

/-- When the button that triggers the operation is shown: the target row
was fetched by the dashboard's status-filtered SELECT (for the Dept HOD
also filtered by `approver_email`, for the Admin by category/item, for
Accounts a payment joined to its request). -/
def Op.guard : Op → AppState → Bool
  | .cartSubmit _ _ _ _ _, _ => true
  | .hodApprove email rid, st =>
      st.requests.any (fun r => r.id == rid && r.status == "Pending Dept HOD" && r.approver_email == email)
  | .hodDecline email rid, st =>
      st.requests.any (fun r => r.id == rid && r.status == "Pending Dept HOD" && r.approver_email == email)
  | .adminIssue rid, st =>
      st.requests.any (fun r => r.id == rid && r.status == "Pending Admin" && r.category == "Stationary")
  | .adminResolve rid, st =>
      st.requests.any (fun r => r.id == rid && r.status == "Pending Admin" && r.category != "Stationary" && r.item == "CUG Issue")
  | .adminCosted rid _ _ _, st =>
      st.requests.any (fun r => r.id == rid && r.status == "Pending Admin" && r.category != "Stationary")
  | .ssHodApprove rid, st => st.requests.any (fun r => r.id == rid && r.status == "Pending SS HOD")
  | .ssHodDecline rid, st => st.requests.any (fun r => r.id == rid && r.status == "Pending SS HOD")
  | .sacValidate rid _ _, st => st.requests.any (fun r => r.id == rid && r.status == "Pending SAC")
  | .edApprove rid, st => st.requests.any (fun r => r.id == rid && r.status == "Pending ED")
  | .edDecline rid, st => st.requests.any (fun r => r.id == rid && r.status == "Pending ED")
  | .gmdApprove rid _, st => st.requests.any (fun r => r.id == rid && r.status == "Pending GMD")
  | .gmdDecline rid, st => st.requests.any (fun r => r.id == rid && r.status == "Pending GMD")
  | .accountsMarkPaid pid, st =>
      st.payments.any (fun p => p.payment_id == pid && p.status == "Ready for Accounts" &&
        st.requests.any (fun r => r.id == p.req_id))

/-- The effect of each operation, transcribed from the `run_query` calls of
`Facility.py`.  The Admin costed form only writes when vendor, cost and
invoice pass `if v and c > 0 and img`; the GMD approval updates the request
and inserts one payment row built from the fetched request. -/
def Op.apply : Op → AppState → AppState
  | .cartSubmit u cart sid oids dateStr, st =>
      { st with requests := st.requests ++ process_cart_submission u cart sid oids dateStr }
  | .hodApprove _ rid, st =>
      { st with requests := updateById st.requests rid (fun r => { r with status := "Pending Admin" }) }
  | .hodDecline _ rid, st =>
      { st with requests := updateById st.requests rid (fun r => { r with status := "Declined" }) }
  | .adminIssue rid, st =>
      { st with requests := updateById st.requests rid (fun r => { r with status := "Completed (Fulfilled)" }) }
  | .adminResolve rid, st =>
      { st with requests := updateById st.requests rid (fun r => { r with status := "Completed (Resolved)" }) }
  | .adminCosted rid v c img, st =>
      if v ≠ "" ∧ 0 < c ∧ img.isSome then
        { st with requests := updateById st.requests rid (fun r =>
            { r with vendor := v, amount := c, initial_cost := c, invoice_img := img,
                     status := "Pending SS HOD" }) }
      else st
  | .ssHodApprove rid, st =>
      { st with requests := updateById st.requests rid (fun r => { r with status := "Pending SAC" }) }
  | .ssHodDecline rid, st =>
      { st with requests := updateById st.requests rid (fun r => { r with status := "Declined" }) }
  | .sacValidate rid newCost note, st =>
      { st with requests := updateById st.requests rid (fun r =>
          { r with amount := newCost, sac_note := note, status := "Pending ED" }) }
  | .edApprove rid, st =>
      { st with requests := updateById st.requests rid (fun r => { r with status := "Pending GMD" }) }
  | .edDecline rid, st =>
      { st with requests := updateById st.requests rid (fun r => { r with status := "Declined" }) }
  | .gmdApprove rid pid, st =>
      match rowOf st.requests rid with
      | some r =>
          { requests := updateById st.requests rid (fun x => { x with status := "Approved" }),
            payments := st.payments ++
              [{ payment_id := pid, req_id := rid, amount := r.amount,
                 status := "Ready for Accounts", vendor := r.vendor }] }
      | none => st
  | .gmdDecline rid, st =>
      { st with requests := updateById st.requests rid (fun r => { r with status := "Declined" }) }
  | .accountsMarkPaid pid, st =>
      { st with payments := st.payments.map (fun p =>
          if p.payment_id == pid then { p with status := "Paid" } else p) }

/-- The fixed status string a request must have for the role's action to be
offered at all: the status each dashboard's SELECT filters on. -/
def Op.statusTrigger : Op → Option String
  | .hodApprove _ _ => some "Pending Dept HOD"
  | .hodDecline _ _ => some "Pending Dept HOD"
  | .adminIssue _ => some "Pending Admin"
  | .adminResolve _ => some "Pending Admin"
  | .adminCosted _ _ _ _ => some "Pending Admin"
  | .ssHodApprove _ => some "Pending SS HOD"
  | .ssHodDecline _ => some "Pending SS HOD"
  | .sacValidate _ _ _ => some "Pending SAC"
  | .edApprove _ => some "Pending ED"
  | .edDecline _ => some "Pending ED"
  | .gmdApprove _ _ => some "Pending GMD"
  | .gmdDecline _ => some "Pending GMD"
  | _ => none

/-- The request id a request-updating operation acts on. -/
def Op.targetId : Op → Option String
  | .hodApprove _ rid => some rid
  | .hodDecline _ rid => some rid
  | .adminIssue rid => some rid
  | .adminResolve rid => some rid
  | .adminCosted rid _ _ _ => some rid
  | .ssHodApprove rid => some rid
  | .ssHodDecline rid => some rid
  | .sacValidate rid _ _ => some rid
  | .edApprove rid => some rid
  | .edDecline rid => some rid
  | .gmdApprove rid _ => some rid
  | .gmdDecline rid => some rid
  | _ => none

/-- The approval actions of the costed approval path: Dept HOD approve, the
Admin costed submit (with a passing form: non-empty vendor, positive cost,
uploaded invoice), SS HOD approve, SAC validate, ED approve, GMD approve.
Declines, the stationary "Issue" and the CUG "Resolve" are not on this
path. -/
def Op.isCostedApproval : Op → Bool
  | .hodApprove _ _ => true
  | .adminCosted _ v c img => v != "" && decide (0 < c) && img.isSome
  | .ssHodApprove _ => true
  | .sacValidate _ _ _ => true
  | .edApprove _ => true
  | .gmdApprove _ _ => true
  | _ => false

/-- The linear status chain of the costed approval path. -/
def chain : List String :=
  ["Pending Dept HOD", "Pending Admin", "Pending SS HOD", "Pending SAC",
   "Pending ED", "Pending GMD", "Approved"]

/-- The six pending statuses the dashboards trigger on. -/
def pendingStatuses : List String :=
  ["Pending Dept HOD", "Pending Admin", "Pending SS HOD", "Pending SAC",
   "Pending ED", "Pending GMD"]

/-- The terminal statuses a request can end in. -/
def terminalStatuses : List String :=
  ["Declined", "Completed (Fulfilled)", "Completed (Resolved)", "Approved"]

/-! ## The SQL statements the approver dashboard submits (`view_approver_dashboard`) -/

/-- A value bound into (or missing from) a SQL statement's parameter tuple. -/
inductive SqlValue where
  | s (v : String)
  | m (v : Money)
deriving DecidableEq

/-- A SQL statement as `run_query` receives it: the query text and the
parameter tuple. -/
structure SqlStmt where
  text : String
  params : List SqlValue
deriving DecidableEq

/-- The statements run by the "Approve" button of `view_approver_dashboard`
for a role, transcribed from lines 274–282: for `"GMD"` an `UPDATE` of the
request plus an `INSERT` into `payments`; for every other role a single
`UPDATE` whose text is the f-string
`f"UPDATE requests SET status='{next_status}' WHERE id=?"`. -/
def approverApproveStmts (role nextStatus rid : String) (amount : Money)
    (vendor pid : String) : List SqlStmt :=
  if role = "GMD" then
    [{ text := "UPDATE requests SET status='Approved' WHERE id=?", params := [.s rid] },
     { text := "INSERT INTO payments (payment_id, req_id, amount, status, vendor) VALUES (?,?,?,?,?)",
       params := [.s pid, .s rid, .m amount, .s "Ready for Accounts", .s vendor] }]
  else
    [{ text := "UPDATE requests SET status='" ++ nextStatus ++ "' WHERE id=?",
       params := [.s rid] }]

/-- The statement run by the "Decline" button of `view_approver_dashboard`. -/
def approverDeclineStmts (rid : String) : List SqlStmt :=
  [{ text := "UPDATE requests SET status='Declined' WHERE id=?", params := [.s rid] }]

/-- The claim as the spec states it: every approver submit runs exactly one
statement, and the status value it sets is bound via a placeholder (it
appears among the parameters, and the SQL text does not vary with it). -/
def approverSubmitClaim : Prop :=
  ∀ (role nextStatus rid : String) (amount : Money) (vendor pid : String),
    (approverApproveStmts role nextStatus rid amount vendor pid).length = 1 ∧
    (∀ stmt ∈ approverApproveStmts role nextStatus rid amount vendor pid,
      SqlValue.s nextStatus ∈ stmt.params) ∧
    (∀ nextStatus2,
      (approverApproveStmts role nextStatus rid amount vendor pid).map SqlStmt.text =
      (approverApproveStmts role nextStatus2 rid amount vendor pid).map SqlStmt.text)

/-! ## The database schema (`init_db`) and the writes of the application -/

/-- A table and its declared columns. -/
structure TableSchema where
  name : String
  columns : List String
deriving DecidableEq

/-- The `users` table of `init_db`. -/
def usersSchema : TableSchema :=
  { name := "users",
    columns := ["username", "password", "role", "name", "email", "dept", "hod_email", "force_reset"] }

/-- The `requests` table of `init_db`. -/
def requestsSchema : TableSchema :=
  { name := "requests",
    columns := ["id", "user_key", "requester_name", "department", "approver_email", "category",
                "item", "status", "amount", "initial_cost", "vendor", "invoice_img", "sac_note", "date"] }

/-- The `audit` table of `init_db`. -/
def auditSchema : TableSchema :=
  { name := "audit", columns := ["id", "timestamp", "user", "action", "details"] }

/-- The `payments` table of `init_db`. -/
def paymentsSchema : TableSchema :=
  { name := "payments", columns := ["payment_id", "req_id", "amount", "status", "vendor"] }

/-- The tables `init_db` creates, in creation order. -/
def initDbTables : List TableSchema :=
  [usersSchema, requestsSchema, auditSchema, paymentsSchema]

/-- The default superuser row `init_db` inserts: username `super`, password
hash of `"123"`, role `Superuser`. -/
def defaultSuperuser : UserDict :=
  { username := "super", password := make_hash "123", role := "Superuser",
    name := "IT Admin", email := "it@co.com", dept := "IT", hod_email := "", force_reset := 0 }

/-- The effect of `init_db` on the `users` table: insert the default
superuser when no row with username `super` exists. -/
def initDbUsers (existing : List UserDict) : List UserDict :=
  if existing.any (fun u => u.username == "super") then existing
  else existing ++ [defaultSuperuser]

/-- Every `INSERT` or `UPDATE` issued anywhere in `Facility.py`, as
(description, target table) pairs: the `init_db` superuser insert, the
audit insert of `log_action`, the two request inserts of
`process_cart_submission`, the password update of `change_password_flow`,
the Admin issue/resolve/costed updates, the approver approve/decline
updates and the GMD payment insert, the SAC validate update, the Dept HOD
approve/decline updates, the superuser user insert, and the Accounts
"Mark Paid" update. -/
def appWriteTargets : List (String × String) :=
  [("init_db default superuser insert", "users"),
   ("log_action insert", "audit"),
   ("process_cart_submission stationary insert", "requests"),
   ("process_cart_submission other insert", "requests"),
   ("change_password_flow update", "users"),
   ("view_admin_dashboard issue update", "requests"),
   ("view_admin_dashboard resolve update", "requests"),
   ("view_admin_dashboard costed update", "requests"),
   ("view_approver_dashboard gmd approve update", "requests"),
   ("view_approver_dashboard gmd payment insert", "payments"),
   ("view_approver_dashboard approve update", "requests"),
   ("view_approver_dashboard decline update", "requests"),
   ("view_sac_dashboard validate update", "requests"),
   ("view_hod_dashboard approve update", "requests"),
   ("view_hod_dashboard decline update", "requests"),
   ("view_superuser create insert", "users"),
   ("view_accounts mark paid update", "payments")]

/-! ## The SAC savings report (`view_sac_dashboard`, Reports tab) -/

/-- One reported row of the savings report together with its computed
`Savings` column (`Initial - Final`). -/
structure SavingsRow where
  date : String
  item : String
  vendor : String
  initial : Money
  final : Money
  note : String
deriving DecidableEq

/-- The savings report: rows with `initial_cost > amount` in one of the
listed statuses, each with `Savings = initial_cost - amount`. -/
def savingsReport (db : List Request) : List (SavingsRow × Money) :=
  (db.filter (fun r => decide (r.initial_cost > r.amount) &&
      ["Approved", "Paid", "Ready for Accounts", "Pending ED", "Pending GMD"].contains r.status)).map
    (fun r => ({ date := r.date, item := r.item, vendor := r.vendor, initial := r.initial_cost,
                 final := r.amount, note := r.sac_note }, r.initial_cost - r.amount))

/-! ## Sample data for concrete instantiations -/

/-- A sample staff user for concrete instantiations. -/
def sampleUser : UserDict :=
  { username := "u1", password := "", role := "Staff", name := "Ada", email := "a@co.com",
    dept := "Ops", hod_email := "hod@co.com", force_reset := 0 }

/-- A sample two-item cart: one stationary item and one facility repair. -/
def sampleCart : List CartItem :=
  [{ type := "Stationary", item := "Biro", qty := 2 },
   { type := "Facility", item := "AC Repair", qty := 1 }]

/-- A sample request row with a given id and status, on the costed path. -/
def sampleReq (rid status : String) : Request :=
  { id := rid, user_key := "u1", requester_name := "Ada", department := "Ops",
    approver_email := "hod@co.com", category := "Facility", item := "AC Repair",
    status := status, amount := 5, initial_cost := 7, vendor := "V Ltd",
    invoice_img := some [1, 2], sac_note := "", date := "2026-01-01" }

/-! ## Helper lemmas -/

/-- With `id` a primary key (no duplicate ids), two member rows with the
same id are the same row. -/
theorem id_inj_of_nodup {db : List Request} (hnd : (db.map Request.id).Nodup)
    {r r' : Request} (hr : r ∈ db) (hr' : r' ∈ db) (hid : r.id = r'.id) : r = r' :=
  List.inj_on_of_nodup_map hnd hr hr' hid

/-- With no duplicate ids, looking a member row up by its id finds it. -/
theorem rowOf_eq_of_nodup {db : List Request} (hnd : (db.map Request.id).Nodup)
    {r : Request} (hr : r ∈ db) : rowOf db r.id = some r := by
  induction db with
  | nil => cases hr
  | cons a tl ih =>
    simp only [List.map_cons, List.nodup_cons] at hnd
    rcases List.mem_cons.1 hr with rfl | htl
    · simp [rowOf, List.find?]
    · have hne : ¬(a.id == r.id) = true := by
        simp only [beq_iff_eq]
        intro he
        exact hnd.1 (he ▸ List.mem_map_of_mem Request.id htl)
      simp only [rowOf, List.find?] at ih ⊢
      rw [Bool.eq_false_iff.2 hne]
      exact ih hnd.2 htl

/-- An update that does not touch the id column keeps the id column. -/
theorem updateById_map_id (db : List Request) (rid : String) (f : Request → Request)
    (hf : ∀ x, (f x).id = x.id) :
    (updateById db rid f).map Request.id = db.map Request.id := by
  simp only [updateById, List.map_map]
  apply List.map_congr_left
  intro x _
  by_cases h : (x.id == rid) = true <;> simp [Function.comp, h, hf]

/-- The updated image of the targeted row is in the updated table. -/
theorem updated_mem_updateById {db : List Request} {r : Request} {rid : String}
    (f : Request → Request) (hr : r ∈ db) (hrid : r.id = rid) :
    f r ∈ updateById db rid f := by
  simp only [updateById, List.mem_map]
  exact ⟨r, hr, by simp [hrid]⟩

/-- Rows whose id differs from the updated one are untouched. -/
theorem mem_updateById_of_ne {db : List Request} {r' : Request} {rid : String}
    (f : Request → Request) (hr' : r' ∈ db) (hne : r'.id ≠ rid) :
    r' ∈ updateById db rid f := by
  simp only [updateById, List.mem_map]
  exact ⟨r', hr', by simp [hne]⟩

/-- Pointwise frame lemma: mapping a function that fixes every row
satisfying `P` relates the table to its image row by row. -/
theorem forall₂_frame {P : Request → Prop} (db : List Request) (g : Request → Request)
    (h : ∀ r ∈ db, P r → g r = r) :
    List.Forall₂ (fun old new => P old → new = old) db (db.map g) := by
  rw [List.forall₂_map_right_iff]
  exact List.forall₂_same.2 (fun x hx hp => h x hx hp)

/-- Every element of a list short enough to be zipped is paired with some
partner. -/
theorem exists_zip_of_mem {α β : Type _} (l : List α) (l' : List β) (a : α)
    (ha : a ∈ l) (hlen : l.length ≤ l'.length) : ∃ b, (a, b) ∈ l.zip l' := by
  induction l generalizing l' with
  | nil => cases ha
  | cons x xs ih =>
    cases l' with
    | nil => simp at hlen
    | cons y ys =>
      rcases List.mem_cons.1 ha with rfl | hxs
      · exact ⟨y, by simp⟩
      · obtain ⟨b, hb⟩ := ih ys hxs (Nat.le_of_succ_le_succ (by simpa using hlen))
        exact ⟨b, by simp [hb]⟩

/-- Looking up the status before and after an id-keyed update of a member
row, when ids are unique and the update keeps the id. -/
theorem statusOf_update {db : List Request} {rid : String} {r : Request}
    (hnd : (db.map Request.id).Nodup) (hr : r ∈ db) (hrid : r.id = rid)
    (f : Request → Request) (hf : ∀ x, (f x).id = x.id) :
    statusOf db rid = some r.status ∧
    statusOf (updateById db rid f) rid = some (f r).status := by
  constructor
  · rw [statusOf, ← hrid, rowOf_eq_of_nodup hnd hr]
    rfl
  · have hnd' : ((updateById db rid f).map Request.id).Nodup := by
      rw [updateById_map_id db rid f hf]
      exact hnd
    have hrow := rowOf_eq_of_nodup hnd' (updated_mem_updateById f hr hrid)
    rw [hf r, hrid] at hrow
    rw [statusOf, hrow]
    rfl

/-- If some member row has the id and the trigger status, every row whose
status differs from the trigger is fixed by the id-keyed update. -/
theorem forall₂_frame_of_trigger {st : AppState} {rid t : String} {r0 : Request}
    (hnd : (st.requests.map Request.id).Nodup)
    (hr0 : r0 ∈ st.requests) (hid : r0.id = rid) (hst : r0.status = t)
    (f : Request → Request) :
    List.Forall₂ (fun old new => old.status ≠ t → new = old)
      st.requests (updateById st.requests rid f) := by
  apply forall₂_frame
  intro r hr hrst
  have hne : ¬(r.id == rid) = true := by
    simp only [beq_iff_eq]
    intro he
    have hreq := id_inj_of_nodup hnd hr hr0 (he.trans hid.symm)
    exact hrst (by rw [hreq, hst])
  simp [hne]

/-- If some member row has the id and a non-terminal trigger status, a row
in a terminal status survives the id-keyed update untouched. -/
theorem mem_update_of_terminal {st : AppState} {rid t : String} {r0 r : Request}
    (hnd : (st.requests.map Request.id).Nodup)
    (hr0 : r0 ∈ st.requests) (hid : r0.id = rid) (hst : r0.status = t)
    (hr : r ∈ st.requests) (hterm : r.status ∈ terminalStatuses)
    (htn : t ∉ terminalStatuses)
    (f : Request → Request) :
    r ∈ updateById st.requests rid f := by
  apply mem_updateById_of_ne f hr
  intro he
  have hreq := id_inj_of_nodup hnd hr hr0 (he.trans hid.symm)
  rw [hreq, hst] at hterm
  exact htn hterm

/-! ## Claim theorems -/

/-- C2: for every non-empty submitted cart, `process_cart_submission`
routes each new request by category: all `Stationary` items are merged
into a single request row (status `"Pending Admin"`, item the joined
description); a `Communication` item named `"CUG Issue"` gets status
`"Pending Admin"`; every other item gets status `"Pending Dept HOD"`; and
every inserted request starts with `amount = 0` and `initial_cost = 0`. -/
theorem cart_submission_routing (u : UserDict) (cart : List CartItem) (sid : String)
    (oids : List String) (dateStr : String)
    (hne : cart ≠ [])
    (hlen : (cart.filter (fun i => ¬ i.type = "Stationary")).length ≤ oids.length) :
    (∀ r ∈ process_cart_submission u cart sid oids dateStr,
        r.amount = 0 ∧ r.initial_cost = 0) ∧
    (cart.filter (fun i => i.type = "Stationary") ≠ [] →
      ((process_cart_submission u cart sid oids dateStr).filter
          (fun r => r.category == "Stationary")).length = 1 ∧
      ∀ r ∈ process_cart_submission u cart sid oids dateStr, r.category = "Stationary" →
        r.status = "Pending Admin" ∧
        r.item = stationaryDesc (cart.filter (fun i => i.type = "Stationary"))) ∧
    (∀ i ∈ cart, ¬ i.type = "Stationary" →
      ∃ r ∈ process_cart_submission u cart sid oids dateStr,
        r.category = i.type ∧ r.item = i.item ∧ r.amount = 0 ∧ r.initial_cost = 0 ∧
        r.status = if i.type = "Communication" ∧ i.item = "CUG Issue"
                   then "Pending Admin" else "Pending Dept HOD") := by
  have hB : ∀ r ∈ ((cart.filter (fun i => ¬ i.type = "Stationary")).zip oids).map
      (fun p => mkOtherRequest u p.2 dateStr p.1), ¬ r.category = "Stationary" := by
    intro r hr
    rcases List.mem_map.1 hr with ⟨p, hp, rfl⟩
    have h1 := (List.of_mem_zip hp).1
    have := List.of_mem_filter h1
    simpa [mkOtherRequest] using of_decide_eq_true this
  unfold process_cart_submission
  rw [if_neg hne]
  refine ⟨?_, ?_, ?_⟩
  · intro r hr
    rcases List.mem_append.1 hr with h1 | h2
    · by_cases hs : cart.filter (fun i => i.type = "Stationary") = []
      · rw [if_neg (fun hcon => hcon hs)] at h1
        cases h1
      · rw [if_pos hs] at h1
        simp only [List.mem_singleton] at h1
        subst h1
        exact ⟨rfl, rfl⟩
    · rcases List.mem_map.1 h2 with ⟨p, _, rfl⟩
      exact ⟨rfl, rfl⟩
  · intro hs
    rw [if_pos hs]
    constructor
    · rw [List.filter_append]
      have h2 : (((cart.filter (fun i => ¬ i.type = "Stationary")).zip oids).map
          (fun p => mkOtherRequest u p.2 dateStr p.1)).filter
            (fun r => r.category == "Stationary") = [] := by
        refine List.filter_eq_nil_iff.mpr ?_
        intro r hr
        simpa using hB r hr
      rw [h2]
      simp [mkStationaryRequest]
    · intro r hr hcat
      rcases List.mem_append.1 hr with h1 | h2
      · simp only [List.mem_singleton] at h1
        subst h1
        exact ⟨rfl, rfl⟩
      · exact absurd hcat (hB r h2)
  · intro i hi hist
    have hif : i ∈ cart.filter (fun j => ¬ j.type = "Stationary") :=
      List.mem_filter.2 ⟨hi, decide_eq_true hist⟩
    obtain ⟨b, hb⟩ := exists_zip_of_mem _ oids i hif hlen
    refine ⟨mkOtherRequest u b dateStr i, ?_, rfl, rfl, rfl, rfl, ?_⟩
    · exact List.mem_append.2 (Or.inr (List.mem_map.2 ⟨(i, b), hb, rfl⟩))
    · simp only [mkOtherRequest, routeStatus]
      rw [if_neg hist]

/-- Witness for C2: the routing theorem applied to the sample cart. -/
theorem cart_submission_routing_witness :
    (sampleCart ≠ []) ∧
    ((sampleCart.filter (fun i => ¬ i.type = "Stationary")).length ≤ ["o1"].length) ∧
    ((∀ r ∈ process_cart_submission sampleUser sampleCart "s1" ["o1"] "2026-01-01",
        r.amount = 0 ∧ r.initial_cost = 0) ∧
     (sampleCart.filter (fun i => i.type = "Stationary") ≠ [] →
       ((process_cart_submission sampleUser sampleCart "s1" ["o1"] "2026-01-01").filter
           (fun r => r.category == "Stationary")).length = 1 ∧
       ∀ r ∈ process_cart_submission sampleUser sampleCart "s1" ["o1"] "2026-01-01",
         r.category = "Stationary" →
         r.status = "Pending Admin" ∧
         r.item = stationaryDesc (sampleCart.filter (fun i => i.type = "Stationary"))) ∧
     (∀ i ∈ sampleCart, ¬ i.type = "Stationary" →
       ∃ r ∈ process_cart_submission sampleUser sampleCart "s1" ["o1"] "2026-01-01",
         r.category = i.type ∧ r.item = i.item ∧ r.amount = 0 ∧ r.initial_cost = 0 ∧
         r.status = if i.type = "Communication" ∧ i.item = "CUG Issue"
                    then "Pending Admin" else "Pending Dept HOD")) :=
  ⟨by decide, by decide,
   cart_submission_routing sampleUser sampleCart "s1" ["o1"] "2026-01-01"
     (by decide) (by decide)⟩

/-- C1: every approval action on the costed path (Dept HOD approve, Admin
costed submit, SS HOD approve, SAC validate, ED approve, GMD approve),
taken on a request its dashboard fetched, moves the request's status from
position `i` to position `i + 1` of the fixed chain
Pending Dept HOD → Pending Admin → Pending SS HOD → Pending SAC →
Pending ED → Pending GMD → Approved; no approval action skips a stage or
moves a request backwards. -/
theorem approval_advances_chain (op : Op) (st : AppState) (rid : String)
    (happ : op.isCostedApproval = true)
    (htid : op.targetId = some rid)
    (hg : op.guard st = true)
    (hnd : (st.requests.map Request.id).Nodup) :
    ∃ i : Fin 6,
      statusOf st.requests rid = some (chain.get i.castSucc) ∧
      statusOf (op.apply st).requests rid = some (chain.get i.succ) := by
  cases op with
  | cartSubmit u cart sid oids dateStr => simp [Op.isCostedApproval] at happ
  | hodDecline email rid2 => simp [Op.isCostedApproval] at happ
  | adminIssue rid2 => simp [Op.isCostedApproval] at happ
  | adminResolve rid2 => simp [Op.isCostedApproval] at happ
  | ssHodDecline rid2 => simp [Op.isCostedApproval] at happ
  | edDecline rid2 => simp [Op.isCostedApproval] at happ
  | gmdDecline rid2 => simp [Op.isCostedApproval] at happ
  | accountsMarkPaid pid => simp [Op.isCostedApproval] at happ
  | hodApprove email rid2 =>
    simp only [Op.targetId, Option.some.injEq] at htid
    subst htid
    simp only [Op.guard] at hg
    obtain ⟨r, hr, hcond⟩ := List.any_eq_true.1 hg
    simp only [Bool.and_eq_true, beq_iff_eq] at hcond
    have h2 := statusOf_update hnd hr hcond.1.1
      (fun x => { x with status := "Pending Admin" }) (fun _ => rfl)
    exact ⟨(0 : Fin 6), by rw [h2.1, hcond.1.2]; rfl, by simpa [Op.apply] using h2.2⟩
  | adminCosted rid2 v c img =>
    simp only [Op.targetId, Option.some.injEq] at htid
    subst htid
    simp only [Op.isCostedApproval, Bool.and_eq_true, bne_iff_ne, decide_eq_true_eq,
      Option.isSome_iff_exists] at happ
    simp only [Op.guard] at hg
    obtain ⟨r, hr, hcond⟩ := List.any_eq_true.1 hg
    simp only [Bool.and_eq_true, beq_iff_eq] at hcond
    have h2 := statusOf_update hnd hr hcond.1.1
      (fun x => { x with vendor := v, amount := c, initial_cost := c, invoice_img := img,
                          status := "Pending SS HOD" }) (fun _ => rfl)
    refine ⟨(1 : Fin 6), by rw [h2.1, hcond.1.2]; rfl, ?_⟩
    simp only [Op.apply]
    rw [if_pos ⟨happ.1.1, happ.1.2, Option.isSome_iff_exists.2 happ.2⟩]
    simpa using h2.2
  | ssHodApprove rid2 =>
    simp only [Op.targetId, Option.some.injEq] at htid
    subst htid
    simp only [Op.guard] at hg
    obtain ⟨r, hr, hcond⟩ := List.any_eq_true.1 hg
    simp only [Bool.and_eq_true, beq_iff_eq] at hcond
    have h2 := statusOf_update hnd hr hcond.1
      (fun x => { x with status := "Pending SAC" }) (fun _ => rfl)
    exact ⟨(2 : Fin 6), by rw [h2.1, hcond.2]; rfl, by simpa [Op.apply] using h2.2⟩
  | sacValidate rid2 newCost note =>
    simp only [Op.targetId, Option.some.injEq] at htid
    subst htid
    simp only [Op.guard] at hg
    obtain ⟨r, hr, hcond⟩ := List.any_eq_true.1 hg
    simp only [Bool.and_eq_true, beq_iff_eq] at hcond
    have h2 := statusOf_update hnd hr hcond.1
      (fun x => { x with amount := newCost, sac_note := note, status := "Pending ED" })
      (fun _ => rfl)
    exact ⟨(3 : Fin 6), by rw [h2.1, hcond.2]; rfl, by simpa [Op.apply] using h2.2⟩
  | edApprove rid2 =>
    simp only [Op.targetId, Option.some.injEq] at htid
    subst htid
    simp only [Op.guard] at hg
    obtain ⟨r, hr, hcond⟩ := List.any_eq_true.1 hg
    simp only [Bool.and_eq_true, beq_iff_eq] at hcond
    have h2 := statusOf_update hnd hr hcond.1
      (fun x => { x with status := "Pending GMD" }) (fun _ => rfl)
    exact ⟨(4 : Fin 6), by rw [h2.1, hcond.2]; rfl, by simpa [Op.apply] using h2.2⟩
  | gmdApprove rid2 pid =>
    simp only [Op.targetId, Option.some.injEq] at htid
    subst htid
    simp only [Op.guard] at hg
    obtain ⟨r, hr, hcond⟩ := List.any_eq_true.1 hg
    simp only [Bool.and_eq_true, beq_iff_eq] at hcond
    have hrow : rowOf st.requests rid2 = some r := by
      rw [← hcond.1]
      exact rowOf_eq_of_nodup hnd hr
    have h2 := statusOf_update hnd hr hcond.1
      (fun x => { x with status := "Approved" }) (fun _ => rfl)
    refine ⟨(5 : Fin 6), by rw [h2.1, hcond.2]; rfl, ?_⟩
    simp only [Op.apply, hrow]
    simpa using h2.2

/-- C5: every status transition is keyed by its role's fixed trigger
status ("Pending Dept HOD" for Dept HOD, "Pending Admin" for Admin,
"Pending SS HOD" for SS HOD, "Pending SAC" for SAC, "Pending ED" for ED,
"Pending GMD" for GMD): an operation with trigger `t`, taken on a fetched
row, relates the requests table to its successor row by row, and every row
whose current status differs from `t` is left unchanged in place. -/
theorem trigger_keyed_updates (op : Op) (st : AppState) (t : String)
    (htr : op.statusTrigger = some t)
    (hg : op.guard st = true)
    (hnd : (st.requests.map Request.id).Nodup) :
    List.Forall₂ (fun old new => old.status ≠ t → new = old)
      st.requests (op.apply st).requests := by
  cases op with
  | cartSubmit u cart sid oids dateStr => simp [Op.statusTrigger] at htr
  | accountsMarkPaid pid => simp [Op.statusTrigger] at htr
  | hodApprove email rid =>
    simp only [Op.statusTrigger, Option.some.injEq] at htr
    subst htr
    obtain ⟨r0, hr0, hcond⟩ := List.any_eq_true.1 hg
    simp only [Bool.and_eq_true, beq_iff_eq] at hcond
    exact forall₂_frame_of_trigger hnd hr0 hcond.1.1 hcond.1.2 _
  | hodDecline email rid =>
    simp only [Op.statusTrigger, Option.some.injEq] at htr
    subst htr
    obtain ⟨r0, hr0, hcond⟩ := List.any_eq_true.1 hg
    simp only [Bool.and_eq_true, beq_iff_eq] at hcond
    exact forall₂_frame_of_trigger hnd hr0 hcond.1.1 hcond.1.2 _
  | adminIssue rid =>
    simp only [Op.statusTrigger, Option.some.injEq] at htr
    subst htr
    obtain ⟨r0, hr0, hcond⟩ := List.any_eq_true.1 hg
    simp only [Bool.and_eq_true, beq_iff_eq] at hcond
    exact forall₂_frame_of_trigger hnd hr0 hcond.1.1 hcond.1.2 _
  | adminResolve rid =>
    simp only [Op.statusTrigger, Option.some.injEq] at htr
    subst htr
    obtain ⟨r0, hr0, hcond⟩ := List.any_eq_true.1 hg
    simp only [Bool.and_eq_true, beq_iff_eq] at hcond
    exact forall₂_frame_of_trigger hnd hr0 hcond.1.1.1 hcond.1.1.2 _
  | adminCosted rid v c img =>
    simp only [Op.statusTrigger, Option.some.injEq] at htr
    subst htr
    obtain ⟨r0, hr0, hcond⟩ := List.any_eq_true.1 hg
    simp only [Bool.and_eq_true, beq_iff_eq] at hcond
    simp only [Op.apply]
    by_cases hvc : v ≠ "" ∧ 0 < c ∧ img.isSome
    · rw [if_pos hvc]
      exact forall₂_frame_of_trigger hnd hr0 hcond.1.1 hcond.1.2 _
    · rw [if_neg hvc]
      exact List.forall₂_same.2 (fun x _ _ => rfl)
  | ssHodApprove rid =>
    simp only [Op.statusTrigger, Option.some.injEq] at htr
    subst htr
    obtain ⟨r0, hr0, hcond⟩ := List.any_eq_true.1 hg
    simp only [Bool.and_eq_true, beq_iff_eq] at hcond
    exact forall₂_frame_of_trigger hnd hr0 hcond.1 hcond.2 _
  | ssHodDecline rid =>
    simp only [Op.statusTrigger, Option.some.injEq] at htr
    subst htr
    obtain ⟨r0, hr0, hcond⟩ := List.any_eq_true.1 hg
    simp only [Bool.and_eq_true, beq_iff_eq] at hcond
    exact forall₂_frame_of_trigger hnd hr0 hcond.1 hcond.2 _
  | sacValidate rid newCost note =>
    simp only [Op.statusTrigger, Option.some.injEq] at htr
    subst htr
    obtain ⟨r0, hr0, hcond⟩ := List.any_eq_true.1 hg
    simp only [Bool.and_eq_true, beq_iff_eq] at hcond
    exact forall₂_frame_of_trigger hnd hr0 hcond.1 hcond.2 _
  | edApprove rid =>
    simp only [Op.statusTrigger, Option.some.injEq] at htr
    subst htr
    obtain ⟨r0, hr0, hcond⟩ := List.any_eq_true.1 hg
    simp only [Bool.and_eq_true, beq_iff_eq] at hcond
    exact forall₂_frame_of_trigger hnd hr0 hcond.1 hcond.2 _
  | edDecline rid =>
    simp only [Op.statusTrigger, Option.some.injEq] at htr
    subst htr
    obtain ⟨r0, hr0, hcond⟩ := List.any_eq_true.1 hg
    simp only [Bool.and_eq_true, beq_iff_eq] at hcond
    exact forall₂_frame_of_trigger hnd hr0 hcond.1 hcond.2 _
  | gmdApprove rid pid =>
    simp only [Op.statusTrigger, Option.some.injEq] at htr
    subst htr
    obtain ⟨r0, hr0, hcond⟩ := List.any_eq_true.1 hg
    simp only [Bool.and_eq_true, beq_iff_eq] at hcond
    have hrow : rowOf st.requests rid = some r0 := by
      rw [← hcond.1]
      exact rowOf_eq_of_nodup hnd hr0
    simp only [Op.apply, hrow]
    exact forall₂_frame_of_trigger hnd hr0 hcond.1 hcond.2 _
  | gmdDecline rid =>
    simp only [Op.statusTrigger, Option.some.injEq] at htr
    subst htr
    obtain ⟨r0, hr0, hcond⟩ := List.any_eq_true.1 hg
    simp only [Bool.and_eq_true, beq_iff_eq] at hcond
    exact forall₂_frame_of_trigger hnd hr0 hcond.1 hcond.2 _

/-- Witness for C5: the SS HOD approval on a two-row table, one row
pending SS HOD and one declined. -/
theorem trigger_keyed_updates_witness :
    ((Op.ssHodApprove "a").statusTrigger = some "Pending SS HOD") ∧
    ((Op.ssHodApprove "a").guard
      ⟨[sampleReq "a" "Pending SS HOD", sampleReq "b" "Declined"], []⟩ = true) ∧
    (([sampleReq "a" "Pending SS HOD", sampleReq "b" "Declined"].map Request.id).Nodup) ∧
    List.Forall₂ (fun old new => old.status ≠ "Pending SS HOD" → new = old)
      [sampleReq "a" "Pending SS HOD", sampleReq "b" "Declined"]
      ((Op.ssHodApprove "a").apply
        ⟨[sampleReq "a" "Pending SS HOD", sampleReq "b" "Declined"], []⟩).requests :=
  ⟨by decide, by decide, by decide,
   trigger_keyed_updates (Op.ssHodApprove "a")
     ⟨[sampleReq "a" "Pending SS HOD", sampleReq "b" "Declined"], []⟩
     "Pending SS HOD" (by decide) (by decide) (by decide)⟩

/-- Witness for C1: the Dept HOD approval on a concrete pending request
advances it one chain position. -/
theorem approval_advances_chain_witness :
    ((Op.hodApprove "hod@co.com" "r1").isCostedApproval = true) ∧
    ((Op.hodApprove "hod@co.com" "r1").targetId = some "r1") ∧
    ((Op.hodApprove "hod@co.com" "r1").guard
      ⟨[sampleReq "r1" "Pending Dept HOD"], []⟩ = true) ∧
    (([sampleReq "r1" "Pending Dept HOD"].map Request.id).Nodup) ∧
    ∃ i : Fin 6,
      statusOf [sampleReq "r1" "Pending Dept HOD"] "r1" = some (chain.get i.castSucc) ∧
      statusOf ((Op.hodApprove "hod@co.com" "r1").apply
        ⟨[sampleReq "r1" "Pending Dept HOD"], []⟩).requests "r1" = some (chain.get i.succ) :=
  ⟨by decide, by decide, by decide, by decide,
   approval_advances_chain (Op.hodApprove "hod@co.com" "r1")
     ⟨[sampleReq "r1" "Pending Dept HOD"], []⟩ "r1"
     (by decide) (by decide) (by decide) (by decide)⟩

/-- C10: terminal statuses are absorbing: for any operation of the
application whose button is shown, a request row whose status is Declined,
Completed (Fulfilled), Completed (Resolved) or Approved is still present
unchanged afterwards; and every status an update is keyed on is one of the
six pending statuses. -/
theorem terminal_statuses_absorbing (op : Op) (st : AppState) (r : Request)
    (hg : op.guard st = true)
    (hnd : (st.requests.map Request.id).Nodup)
    (hr : r ∈ st.requests)
    (hterm : r.status ∈ terminalStatuses) :
    r ∈ (op.apply st).requests ∧
    ∀ t, op.statusTrigger = some t → t ∈ pendingStatuses := by
  cases op with
  | cartSubmit u cart sid oids dateStr =>
    exact ⟨List.mem_append_left _ hr, by intro t ht; simp [Op.statusTrigger] at ht⟩
  | accountsMarkPaid pid =>
    exact ⟨hr, by intro t ht; simp [Op.statusTrigger] at ht⟩
  | hodApprove email rid =>
    obtain ⟨r0, hr0, hcond⟩ := List.any_eq_true.1 hg
    simp only [Bool.and_eq_true, beq_iff_eq] at hcond
    refine ⟨mem_update_of_terminal hnd hr0 hcond.1.1 hcond.1.2 hr hterm (by decide) _, ?_⟩
    intro t ht
    simp only [Op.statusTrigger, Option.some.injEq] at ht
    subst ht
    decide
  | hodDecline email rid =>
    obtain ⟨r0, hr0, hcond⟩ := List.any_eq_true.1 hg
    simp only [Bool.and_eq_true, beq_iff_eq] at hcond
    refine ⟨mem_update_of_terminal hnd hr0 hcond.1.1 hcond.1.2 hr hterm (by decide) _, ?_⟩
    intro t ht
    simp only [Op.statusTrigger, Option.some.injEq] at ht
    subst ht
    decide
  | adminIssue rid =>
    obtain ⟨r0, hr0, hcond⟩ := List.any_eq_true.1 hg
    simp only [Bool.and_eq_true, beq_iff_eq] at hcond
    refine ⟨mem_update_of_terminal hnd hr0 hcond.1.1 hcond.1.2 hr hterm (by decide) _, ?_⟩
    intro t ht
    simp only [Op.statusTrigger, Option.some.injEq] at ht
    subst ht
    decide
  | adminResolve rid =>
    obtain ⟨r0, hr0, hcond⟩ := List.any_eq_true.1 hg
    simp only [Bool.and_eq_true, beq_iff_eq] at hcond
    refine ⟨mem_update_of_terminal hnd hr0 hcond.1.1.1 hcond.1.1.2 hr hterm (by decide) _, ?_⟩
    intro t ht
    simp only [Op.statusTrigger, Option.some.injEq] at ht
    subst ht
    decide
  | adminCosted rid v c img =>
    obtain ⟨r0, hr0, hcond⟩ := List.any_eq_true.1 hg
    simp only [Bool.and_eq_true, beq_iff_eq] at hcond
    constructor
    · simp only [Op.apply]
      by_cases hvc : v ≠ "" ∧ 0 < c ∧ img.isSome
      · rw [if_pos hvc]
        exact mem_update_of_terminal hnd hr0 hcond.1.1 hcond.1.2 hr hterm (by decide) _
      · rw [if_neg hvc]
        exact hr
    · intro t ht
      simp only [Op.statusTrigger, Option.some.injEq] at ht
      subst ht
      decide
  | ssHodApprove rid =>
    obtain ⟨r0, hr0, hcond⟩ := List.any_eq_true.1 hg
    simp only [Bool.and_eq_true, beq_iff_eq] at hcond
    refine ⟨mem_update_of_terminal hnd hr0 hcond.1 hcond.2 hr hterm (by decide) _, ?_⟩
    intro t ht
    simp only [Op.statusTrigger, Option.some.injEq] at ht
    subst ht
    decide
  | ssHodDecline rid =>
    obtain ⟨r0, hr0, hcond⟩ := List.any_eq_true.1 hg
    simp only [Bool.and_eq_true, beq_iff_eq] at hcond
    refine ⟨mem_update_of_terminal hnd hr0 hcond.1 hcond.2 hr hterm (by decide) _, ?_⟩
    intro t ht
    simp only [Op.statusTrigger, Option.some.injEq] at ht
    subst ht
    decide
  | sacValidate rid newCost note =>
    obtain ⟨r0, hr0, hcond⟩ := List.any_eq_true.1 hg
    simp only [Bool.and_eq_true, beq_iff_eq] at hcond
    refine ⟨mem_update_of_terminal hnd hr0 hcond.1 hcond.2 hr hterm (by decide) _, ?_⟩
    intro t ht
    simp only [Op.statusTrigger, Option.some.injEq] at ht
    subst ht
    decide
  | edApprove rid =>
    obtain ⟨r0, hr0, hcond⟩ := List.any_eq_true.1 hg
    simp only [Bool.and_eq_true, beq_iff_eq] at hcond
    refine ⟨mem_update_of_terminal hnd hr0 hcond.1 hcond.2 hr hterm (by decide) _, ?_⟩
    intro t ht
    simp only [Op.statusTrigger, Option.some.injEq] at ht
    subst ht
    decide
  | edDecline rid =>
    obtain ⟨r0, hr0, hcond⟩ := List.any_eq_true.1 hg
    simp only [Bool.and_eq_true, beq_iff_eq] at hcond
    refine ⟨mem_update_of_terminal hnd hr0 hcond.1 hcond.2 hr hterm (by decide) _, ?_⟩
    intro t ht
    simp only [Op.statusTrigger, Option.some.injEq] at ht
    subst ht
    decide
  | gmdApprove rid pid =>
    obtain ⟨r0, hr0, hcond⟩ := List.any_eq_true.1 hg
    simp only [Bool.and_eq_true, beq_iff_eq] at hcond
    have hrow : rowOf st.requests rid = some r0 := by
      rw [← hcond.1]
      exact rowOf_eq_of_nodup hnd hr0
    constructor
    · simp only [Op.apply, hrow]
      exact mem_update_of_terminal hnd hr0 hcond.1 hcond.2 hr hterm (by decide) _
    · intro t ht
      simp only [Op.statusTrigger, Option.some.injEq] at ht
      subst ht
      decide
  | gmdDecline rid =>
    obtain ⟨r0, hr0, hcond⟩ := List.any_eq_true.1 hg
    simp only [Bool.and_eq_true, beq_iff_eq] at hcond
    refine ⟨mem_update_of_terminal hnd hr0 hcond.1 hcond.2 hr hterm (by decide) _, ?_⟩
    intro t ht
    simp only [Op.statusTrigger, Option.some.injEq] at ht
    subst ht
    decide

/-- Witness for C10: an ED approval leaves a concrete approved request
untouched. -/
theorem terminal_statuses_absorbing_witness :
    ((Op.edApprove "a").guard
      ⟨[sampleReq "a" "Pending ED", sampleReq "b" "Approved"], []⟩ = true) ∧
    (([sampleReq "a" "Pending ED", sampleReq "b" "Approved"].map Request.id).Nodup) ∧
    (sampleReq "b" "Approved" ∈ [sampleReq "a" "Pending ED", sampleReq "b" "Approved"]) ∧
    ((sampleReq "b" "Approved").status ∈ terminalStatuses) ∧
    (sampleReq "b" "Approved" ∈
      ((Op.edApprove "a").apply
        ⟨[sampleReq "a" "Pending ED", sampleReq "b" "Approved"], []⟩).requests ∧
     ∀ t, (Op.edApprove "a").statusTrigger = some t → t ∈ pendingStatuses) :=
  ⟨by decide, by decide, by decide, by decide,
   terminal_statuses_absorbing (Op.edApprove "a")
     ⟨[sampleReq "a" "Pending ED", sampleReq "b" "Approved"], []⟩
     (sampleReq "b" "Approved") (by decide) (by decide) (by decide) (by decide)⟩

/-- C6: the Admin costed submit on a fetched non-stationary pending
request writes vendor, amount, initial_cost and invoice_img and sets the
status to `"Pending SS HOD"` if and only if the submitted vendor is
non-empty, the cost is strictly positive and an invoice was uploaded;
otherwise the whole application state is left unchanged. -/
theorem admin_costed_gated (st : AppState) (rid v : String) (c : Money)
    (img : Option (List Nat)) (r : Request)
    (hr : r ∈ st.requests) (hid : r.id = rid)
    (hst : r.status = "Pending Admin") (hcat : r.category ≠ "Stationary")
    (hnd : (st.requests.map Request.id).Nodup) :
    ((v ≠ "" ∧ 0 < c ∧ img.isSome) →
      rowOf ((Op.adminCosted rid v c img).apply st).requests rid =
        some { r with vendor := v, amount := c, initial_cost := c, invoice_img := img,
                      status := "Pending SS HOD" } ∧
      ∀ r2 ∈ st.requests, r2.id ≠ rid →
        r2 ∈ ((Op.adminCosted rid v c img).apply st).requests) ∧
    (¬(v ≠ "" ∧ 0 < c ∧ img.isSome) →
      (Op.adminCosted rid v c img).apply st = st) := by
  constructor
  · intro hvc
    simp only [Op.apply, if_pos hvc]
    set f : Request → Request := fun x =>
      { x with vendor := v, amount := c, initial_cost := c, invoice_img := img,
               status := "Pending SS HOD" } with hf
    constructor
    · have hnd' : ((updateById st.requests rid f).map Request.id).Nodup := by
        rw [updateById_map_id st.requests rid f (fun _ => rfl)]
        exact hnd
      have hrow := rowOf_eq_of_nodup hnd' (updated_mem_updateById f hr hid)
      rw [show (f r).id = r.id from rfl, hid] at hrow
      exact hrow
    · intro r2 hr2 hne2
      exact mem_updateById_of_ne f hr2 hne2
  · intro hvc
    simp only [Op.apply, if_neg hvc]

/-- Witness for C6: a concrete valid admin costed submit. -/
theorem admin_costed_gated_witness :
    (sampleReq "a" "Pending Admin" ∈ [sampleReq "a" "Pending Admin"]) ∧
    ((sampleReq "a" "Pending Admin").id = "a") ∧
    ((sampleReq "a" "Pending Admin").status = "Pending Admin") ∧
    ((sampleReq "a" "Pending Admin").category ≠ "Stationary") ∧
    (([sampleReq "a" "Pending Admin"].map Request.id).Nodup) ∧
    ((("V2" ≠ "" ∧ (0 : Money) < 3 ∧ (some [9] : Option (List Nat)).isSome) →
      rowOf ((Op.adminCosted "a" "V2" 3 (some [9])).apply
          ⟨[sampleReq "a" "Pending Admin"], []⟩).requests "a" =
        some { sampleReq "a" "Pending Admin" with
                 vendor := "V2"
                 amount := 3
                 initial_cost := 3
                 invoice_img := some [9]
                 status := "Pending SS HOD" } ∧
      ∀ r2 ∈ [sampleReq "a" "Pending Admin"], r2.id ≠ "a" →
        r2 ∈ ((Op.adminCosted "a" "V2" 3 (some [9])).apply
          ⟨[sampleReq "a" "Pending Admin"], []⟩).requests) ∧
     (¬("V2" ≠ "" ∧ (0 : Money) < 3 ∧ (some [9] : Option (List Nat)).isSome) →
      (Op.adminCosted "a" "V2" 3 (some [9])).apply
        ⟨[sampleReq "a" "Pending Admin"], []⟩ = ⟨[sampleReq "a" "Pending Admin"], []⟩)) :=
  ⟨by decide, by decide, by decide, by decide, by decide,
   admin_costed_gated ⟨[sampleReq "a" "Pending Admin"], []⟩ "a" "V2" 3 (some [9])
     (sampleReq "a" "Pending Admin") (by decide) (by decide) (by decide) (by decide) (by decide)⟩

/-- C3: the workflow ends in payment: the GMD approval sets the fetched
request to `"Approved"` and appends exactly one payment row carrying the
request's id, amount and vendor with status `"Ready for Accounts"`; the
Accounts "Mark Paid" button is then offered for that payment and sets its
status to `"Paid"` while leaving the requests table unchanged. -/
theorem gmd_approval_ends_in_payment (st : AppState) (rid pid : String) (r : Request)
    (hr : r ∈ st.requests) (hid : r.id = rid) (hst : r.status = "Pending GMD")
    (hnd : (st.requests.map Request.id).Nodup)
    (hfresh : ∀ p ∈ st.payments, p.payment_id ≠ pid) :
    statusOf ((Op.gmdApprove rid pid).apply st).requests rid = some "Approved" ∧
    ((Op.gmdApprove rid pid).apply st).payments =
      st.payments ++ [{ payment_id := pid, req_id := rid, amount := r.amount,
                        status := "Ready for Accounts", vendor := r.vendor }] ∧
    (Op.accountsMarkPaid pid).guard ((Op.gmdApprove rid pid).apply st) = true ∧
    ((Op.accountsMarkPaid pid).apply ((Op.gmdApprove rid pid).apply st)).requests =
      ((Op.gmdApprove rid pid).apply st).requests ∧
    ((Op.accountsMarkPaid pid).apply ((Op.gmdApprove rid pid).apply st)).payments =
      st.payments ++ [{ payment_id := pid, req_id := rid, amount := r.amount,
                        status := "Paid", vendor := r.vendor }] := by
  have hrow : rowOf st.requests rid = some r := by
    rw [← hid]
    exact rowOf_eq_of_nodup hnd hr
  have happly : (Op.gmdApprove rid pid).apply st =
      { requests := updateById st.requests rid
          (fun x : Request => ({ x with status := "Approved" } : Request)),
        payments := st.payments ++
          [{ payment_id := pid, req_id := rid, amount := r.amount,
             status := "Ready for Accounts", vendor := r.vendor }] } := by
    simp only [Op.apply, hrow]
  refine ⟨?_, ?_, ?_, ?_, ?_⟩
  · rw [happly]
    exact (statusOf_update hnd hr hid
      (fun x : Request => ({ x with status := "Approved" } : Request)) (fun _ => rfl)).2
  · rw [happly]
  · rw [happly]
    apply List.any_eq_true.2
    refine ⟨{ payment_id := pid, req_id := rid, amount := r.amount,
              status := "Ready for Accounts", vendor := r.vendor },
            List.mem_append_right _ (List.mem_singleton_self _), ?_⟩
    have hmem := updated_mem_updateById
      (fun x : Request => ({ x with status := "Approved" } : Request)) hr hid
    have hany : (updateById st.requests rid
        (fun x : Request => ({ x with status := "Approved" } : Request))).any
        (fun r2 => r2.id == rid) = true :=
      List.any_eq_true.2 ⟨_, hmem, by simp [hid]⟩
    simp [hany]
  · rw [happly]
    rfl
  · rw [happly]
    have h1 : st.payments.map (fun p =>
        if p.payment_id == pid then { p with status := "Paid" } else p) =
        st.payments.map id := by
      apply List.map_congr_left
      intro p hp
      simp [hfresh p hp]
    simp only [Op.apply, List.map_append, h1, List.map_id]
    simp

/-- Witness for C3: the GMD approval on a concrete pending request,
followed by Mark Paid. -/
theorem gmd_approval_ends_in_payment_witness :
    (sampleReq "a" "Pending GMD" ∈ [sampleReq "a" "Pending GMD"]) ∧
    ((sampleReq "a" "Pending GMD").id = "a") ∧
    ((sampleReq "a" "Pending GMD").status = "Pending GMD") ∧
    (([sampleReq "a" "Pending GMD"].map Request.id).Nodup) ∧
    (∀ p ∈ ([] : List Payment), p.payment_id ≠ "p1") ∧
    (statusOf ((Op.gmdApprove "a" "p1").apply
        ⟨[sampleReq "a" "Pending GMD"], []⟩).requests "a" = some "Approved" ∧
     ((Op.gmdApprove "a" "p1").apply ⟨[sampleReq "a" "Pending GMD"], []⟩).payments =
       [] ++ [{ payment_id := "p1", req_id := "a",
                amount := (sampleReq "a" "Pending GMD").amount,
                status := "Ready for Accounts",
                vendor := (sampleReq "a" "Pending GMD").vendor }] ∧
     (Op.accountsMarkPaid "p1").guard
       ((Op.gmdApprove "a" "p1").apply ⟨[sampleReq "a" "Pending GMD"], []⟩) = true ∧
     ((Op.accountsMarkPaid "p1").apply ((Op.gmdApprove "a" "p1").apply
         ⟨[sampleReq "a" "Pending GMD"], []⟩)).requests =
       ((Op.gmdApprove "a" "p1").apply ⟨[sampleReq "a" "Pending GMD"], []⟩).requests ∧
     ((Op.accountsMarkPaid "p1").apply ((Op.gmdApprove "a" "p1").apply
         ⟨[sampleReq "a" "Pending GMD"], []⟩)).payments =
       [] ++ [{ payment_id := "p1", req_id := "a",
                amount := (sampleReq "a" "Pending GMD").amount,
                status := "Paid",
                vendor := (sampleReq "a" "Pending GMD").vendor }]) :=
  ⟨by decide, by decide, by decide, by decide, by decide,
   gmd_approval_ends_in_payment ⟨[sampleReq "a" "Pending GMD"], []⟩ "a" "p1"
     (sampleReq "a" "Pending GMD") (by decide) (by decide) (by decide) (by decide)
     (by decide)⟩

/-- C9: the SAC Validate on a fetched pending-SAC request updates only
`amount`, `sac_note` and `status` (to `"Pending ED"`), leaving
`initial_cost` and every other field unchanged; every row of the savings
report computes `Savings = initial_cost - amount`, and whenever the
negotiated amount is below the Admin's original quote the validated
request is reported with savings `initial_cost - negotiated amount`. -/
theorem sac_validate_frame (st : AppState) (rid : String) (newCost : Money) (note : String)
    (r : Request) (hr : r ∈ st.requests) (hid : r.id = rid)
    (hst : r.status = "Pending SAC")
    (hnd : (st.requests.map Request.id).Nodup) :
    rowOf ((Op.sacValidate rid newCost note).apply st).requests rid =
      some { r with
               amount := newCost
               sac_note := note
               status := "Pending ED" } ∧
    (∀ row ∈ savingsReport ((Op.sacValidate rid newCost note).apply st).requests,
      row.2 = row.1.initial - row.1.final) ∧
    (newCost < r.initial_cost →
      ({ date := r.date, item := r.item, vendor := r.vendor, initial := r.initial_cost,
         final := newCost, note := note }, r.initial_cost - newCost) ∈
        savingsReport ((Op.sacValidate rid newCost note).apply st).requests) := by
  have hf : ∀ x : Request,
      ((fun x : Request => ({ x with
                                amount := newCost
                                sac_note := note
                                status := "Pending ED" } : Request)) x).id = x.id :=
    fun _ => rfl
  refine ⟨?_, ?_, ?_⟩
  · simp only [Op.apply]
    have hnd' := updateById_map_id st.requests rid _ hf ▸ hnd
    have hrow := rowOf_eq_of_nodup hnd'
      (updated_mem_updateById (fun x : Request => ({ x with
                                                       amount := newCost
                                                       sac_note := note
                                                       status := "Pending ED" } : Request)) hr hid)
    rw [hid] at hrow
    exact hrow
  · intro row hrow
    rcases List.mem_map.1 hrow with ⟨x, _, rfl⟩
    rfl
  · intro hlt
    simp only [Op.apply, savingsReport]
    apply List.mem_map.2
    refine ⟨{ r with
                amount := newCost
                sac_note := note
                status := "Pending ED" }, ?_, rfl⟩
    apply List.mem_filter.2
    refine ⟨updated_mem_updateById _ hr hid, ?_⟩
    simp [hlt]

/-- Witness for C9: a concrete SAC validation negotiating the amount down
from the admin quote. -/
theorem sac_validate_frame_witness :
    (sampleReq "a" "Pending SAC" ∈ [sampleReq "a" "Pending SAC"]) ∧
    ((sampleReq "a" "Pending SAC").id = "a") ∧
    ((sampleReq "a" "Pending SAC").status = "Pending SAC") ∧
    (([sampleReq "a" "Pending SAC"].map Request.id).Nodup) ∧
    (rowOf ((Op.sacValidate "a" 4 "deal").apply
        ⟨[sampleReq "a" "Pending SAC"], []⟩).requests "a" =
      some { sampleReq "a" "Pending SAC" with
               amount := 4
               sac_note := "deal"
               status := "Pending ED" } ∧
     (∀ row ∈ savingsReport ((Op.sacValidate "a" 4 "deal").apply
         ⟨[sampleReq "a" "Pending SAC"], []⟩).requests,
       row.2 = row.1.initial - row.1.final) ∧
     ((4 : Money) < (sampleReq "a" "Pending SAC").initial_cost →
       ({ date := (sampleReq "a" "Pending SAC").date,
          item := (sampleReq "a" "Pending SAC").item,
          vendor := (sampleReq "a" "Pending SAC").vendor,
          initial := (sampleReq "a" "Pending SAC").initial_cost,
          final := 4, note := "deal" }, (sampleReq "a" "Pending SAC").initial_cost - 4) ∈
         savingsReport ((Op.sacValidate "a" 4 "deal").apply
           ⟨[sampleReq "a" "Pending SAC"], []⟩).requests)) :=
  ⟨by decide, by decide, by decide, by decide,
   sac_validate_frame ⟨[sampleReq "a" "Pending SAC"], []⟩ "a" 4 "deal"
     (sampleReq "a" "Pending SAC") (by decide) (by decide) (by decide) (by decide)⟩

/-- C8: password checking is a round trip of hashing:
`check_hash p (make_hash p)` always succeeds; `check_hash p h` succeeds
exactly when `h` is the SHA-256 hex digest of the UTF-8 bytes of `p`; and
login succeeds exactly when a user row exists under the lowercased typed
username whose stored hash equals the hash of the supplied password. -/
theorem hash_roundtrip_login (p h : String) (users : List UserDict) (uname pwd : String) :
    check_hash p (make_hash p) = true ∧
    (check_hash p h = true ↔ h = sha256hex (strBytes p)) ∧
    (loginOk users uname pwd = true ↔
      ∃ user, get_user users uname.toLower = some user ∧
        user.password = make_hash pwd) := by
  refine ⟨?_, ?_, ?_⟩
  · simp [check_hash]
  · simp only [check_hash, make_hash, beq_iff_eq]
    exact eq_comm
  · unfold loginOk
    cases hgu : get_user users uname.toLower with
    | none => simp
    | some user =>
      simp only [check_hash, beq_iff_eq, Option.some.injEq]
      constructor
      · intro he
        exact ⟨user, rfl, he.symm⟩
      · rintro ⟨user2, rfl, he⟩
        exact he.symm

/-- Cancellation for interpolated strings: a fixed prefix and suffix around
an interpolated value determine the value. -/
theorem interpolation_cancel (pre suf n1 n2 : String)
    (he : pre ++ n1 ++ suf = pre ++ n2 ++ suf) : n1 = n2 := by
  have hd : pre.data ++ n1.data ++ suf.data = pre.data ++ n2.data ++ suf.data := by
    have h2 := congrArg String.data he
    simpa [String.data_append] using h2
  exact String.ext (List.append_cancel_left (List.append_cancel_right hd))

/-- C4 counterexample: the claim as the spec states it is false — at the
GMD role the approve submit runs two SQL statements, not one. -/
theorem approver_submit_claim_false : ¬ approverSubmitClaim := by
  intro hclaim
  have h1 := (hclaim "GMD" "Approved" "r1" 5 "V" "p1").1
  simp [approverApproveStmts] at h1

/-- C4 amended: for every approver role other than GMD, the approve submit
runs exactly one UPDATE statement whose only bound parameter is the
request id, while the next status is interpolated into the SQL text (the
text determines the status value, so it is not status-independent); the
GMD approve submit runs two statements (the request UPDATE plus the
payments INSERT); and each decline submit runs exactly one UPDATE bound on
the request id. -/
theorem approver_submit_statements (role nextStatus rid : String) (amount : Money)
    (vendor pid : String) (hrole : role ≠ "GMD") :
    approverApproveStmts role nextStatus rid amount vendor pid =
      [{ text := "UPDATE requests SET status='" ++ nextStatus ++ "' WHERE id=?",
         params := [.s rid] }] ∧
    (∀ n2, (approverApproveStmts role nextStatus rid amount vendor pid).map SqlStmt.text =
        (approverApproveStmts role n2 rid amount vendor pid).map SqlStmt.text →
      nextStatus = n2) ∧
    (approverApproveStmts "GMD" nextStatus rid amount vendor pid).length = 2 ∧
    approverDeclineStmts rid =
      [{ text := "UPDATE requests SET status='Declined' WHERE id=?",
         params := [.s rid] }] := by
  refine ⟨by simp [approverApproveStmts, hrole], ?_, by simp [approverApproveStmts], rfl⟩
  intro n2 htext
  simp only [approverApproveStmts, if_neg hrole, List.map_cons, List.map_nil,
    List.cons.injEq, and_true] at htext
  exact interpolation_cancel "UPDATE requests SET status='" "' WHERE id=?" nextStatus n2 htext

/-- Witness for the amended C4 at the SS HOD role. -/
theorem approver_submit_statements_witness :
    ("SS HOD" ≠ "GMD") ∧
    (approverApproveStmts "SS HOD" "Pending SAC" "r1" 5 "V" "p1" =
      [{ text := "UPDATE requests SET status='" ++ "Pending SAC" ++ "' WHERE id=?",
         params := [.s "r1"] }] ∧
     (∀ n2, (approverApproveStmts "SS HOD" "Pending SAC" "r1" 5 "V" "p1").map SqlStmt.text =
         (approverApproveStmts "SS HOD" n2 "r1" 5 "V" "p1").map SqlStmt.text →
       "Pending SAC" = n2) ∧
     (approverApproveStmts "GMD" "Pending SAC" "r1" 5 "V" "p1").length = 2 ∧
     approverDeclineStmts "r1" =
       [{ text := "UPDATE requests SET status='Declined' WHERE id=?",
          params := [.s "r1"] }]) :=
  ⟨by decide,
   approver_submit_statements "SS HOD" "Pending SAC" "r1" 5 "V" "p1" (by decide)⟩

/-- C7: `init_db` creates exactly the four tables users, requests, audit
and payments; their declared column counts are 8, 14, 5 and 5; on a users
table with no `super` row it inserts the default superuser (username
`super`, role `Superuser`, password the hash of `"123"`); and every
INSERT or UPDATE issued anywhere in the application targets one of the
four tables. -/
theorem init_db_schema (existing : List UserDict)
    (hnosuper : existing.any (fun u => u.username == "super") = false) :
    initDbTables.map TableSchema.name = ["users", "requests", "audit", "payments"] ∧
    usersSchema.columns.length = 8 ∧
    requestsSchema.columns.length = 14 ∧
    auditSchema.columns.length = 5 ∧
    paymentsSchema.columns.length = 5 ∧
    (∃ u ∈ initDbUsers existing,
      u.username = "super" ∧ u.role = "Superuser" ∧ u.password = make_hash "123") ∧
    (∀ w ∈ appWriteTargets, w.2 ∈ initDbTables.map TableSchema.name) := by
  refine ⟨rfl, rfl, rfl, rfl, rfl, ?_, by decide⟩
  refine ⟨defaultSuperuser, ?_, rfl, rfl, rfl⟩
  simp [initDbUsers, hnosuper]

/-- Witness for C7: `init_db` on an empty users table. -/
theorem init_db_schema_witness :
    (([] : List UserDict).any (fun u => u.username == "super") = false) ∧
    (initDbTables.map TableSchema.name = ["users", "requests", "audit", "payments"] ∧
     usersSchema.columns.length = 8 ∧
     requestsSchema.columns.length = 14 ∧
     auditSchema.columns.length = 5 ∧
     paymentsSchema.columns.length = 5 ∧
     (∃ u ∈ initDbUsers [],
       u.username = "super" ∧ u.role = "Superuser" ∧ u.password = make_hash "123") ∧
     (∀ w ∈ appWriteTargets, w.2 ∈ initDbTables.map TableSchema.name)) :=
  ⟨by decide, init_db_schema [] (by decide)⟩

end Facility
